import Mathlib

/-!
Verification of the ASTM LIS2-A2 mock-server protocol core
(`server.py`, class `ASTMProtocolHandler`).

Byte strings are modelled as `List Nat`; the per-connection handler state
as a `Session` structure; the bytes the handler writes to the socket as a
`List Out`.  The inbound loop (`ASTMProtocolHandler.handle`) is modelled as
a step function over `Event`s, where one `Event.stx frameData` stands for
an STX byte followed by the bytes read up to CR LF
(`_receive_until(CR + LF)`), and `Event.eot r` carries the byte trace `r`
that the outbound responder produces when a field query is detected (the
responder itself is modelled separately, as a pure function of the peer's
replies).
-/

namespace AstmMock

/-- Control character ENQ (0x05). -/
def ENQ : Nat := 0x05

/-- Control character ACK (0x06). -/
def ACK : Nat := 0x06

/-- Control character NAK (0x15). -/
def NAK : Nat := 0x15

/-- Control character EOT (0x04). -/
def EOT : Nat := 0x04

/-- Control character STX (0x02). -/
def STX : Nat := 0x02

/-- Control character ETX (0x03). -/
def ETX : Nat := 0x03

/-- Control character ETB (0x17). -/
def ETB : Nat := 0x17

/-- Control character CR (0x0D). -/
def CR : Nat := 0x0D

/-- Control character LF (0x0A). -/
def LF : Nat := 0x0A

/-- Restricted characters per CLSI LIS1-A 8.6, in the order the source
lists them (`RESTRICTED_CHARS` in server.py). -/
def RESTRICTED_CHARS : List Nat :=
  [0x01, 0x02, 0x03, 0x04, 0x05, 0x06, 0x10, 0x15, 0x16, 0x17,
   0x0A, 0x11, 0x12, 0x13, 0x14]

/-- First index of byte `b` in `l`, or `none`; models Python `bytes.find`
(which returns the first occurrence or -1). -/
def bfind (l : List Nat) (b : Nat) : Option Nat :=
  match l with
  | [] => none
  | x :: xs => if x = b then some 0 else (bfind xs b).map (· + 1)

/-- Membership test for a byte in a byte string; models Python `in`. -/
def bmem (l : List Nat) (b : Nat) : Bool :=
  match l with
  | [] => false
  | x :: xs => x = b || bmem xs b

/-- Checks whether any byte of `restricted` occurs in `content`; models the
loop over `RESTRICTED_CHARS` in `_validate_message_chars`. -/
def containsAnyOf (content : List Nat) (restricted : List Nat) : Bool :=
  match restricted with
  | [] => false
  | r :: rs => bmem content r || containsAnyOf content rs

/-- Removes every trailing LF byte; models Python `content.rstrip(LF)`,
which strips all trailing occurrences, not just one. -/
def rstripLF (l : List Nat) : List Nat :=
  (l.reverse.dropWhile (· = LF)).reverse

/-- Models `ASTMProtocolHandler._validate_message_chars`: strip trailing
LFs, then scan for restricted characters. -/
def validateMessageChars (content : List Nat) : Bool :=
  !(containsAnyOf (rstripLF content) RESTRICTED_CHARS)

/-- Uppercase hex digit byte for a nibble; models the `'%02X'` rendering. -/
def hexDigit (k : Nat) : Nat :=
  if k < 10 then 0x30 + k else 0x41 + (k - 10)

/-- Two uppercase hex digit bytes for a value below 256 (`f'{n:02X}'`). -/
def hex2 (n : Nat) : List Nat :=
  [hexDigit (n / 16 % 16), hexDigit (n % 16)]

/-- Models `bytes.decode('ascii', errors='ignore')`: bytes at or above
128 are dropped. -/
def asciiIgnore (l : List Nat) : List Nat :=
  l.filter (· < 128)

/-- Uppercases one ASCII byte; models `str.upper` on a single character. -/
def upperByte (b : Nat) : Nat :=
  if 0x61 ≤ b ∧ b ≤ 0x7A then b - 32 else b

/-- Uppercases an ASCII byte string (`str.upper`). -/
def upperBytes (l : List Nat) : List Nat :=
  l.map upperByte

/-- Body of an encoded frame after the leading STX: frame-number digit,
content, ETX, two checksum hex digits, CR, LF, exactly as `_send_frame`
concatenates them. -/
def frameBody (n : Nat) (content : List Nat) : List Nat :=
  (0x30 + n) ::
    (content ++ ETX ::
      (hex2 (((0x30 + n) :: (content ++ [ETX])).sum % 256) ++ [CR, LF]))

/-- Models `ASTMProtocolHandler._send_frame`'s frame construction:
`STX + frame_num + content + ETX + checksum_str + CR + LF` with the
checksum summed over `frame_num + content + ETX` modulo 256. -/
def encodeFrame (n : Nat) (content : List Nat) : List Nat :=
  STX :: frameBody n content

/-- Reasons a frame is rejected, one per NAK site in `_handle_frame`. -/
inductive FrameError
  | emptyFrame
  | frameTooShort
  | badFrameNumber
  | seqMismatch
  | noTerminator
  | restrictedChar
  | truncatedChecksum
  | checksumMismatch
deriving DecidableEq, Repr

/-- Terminator kind of a decoded frame: ETX (end of text) or ETB
(end of block). -/
inductive TermKind
  | etx
  | etb
deriving DecidableEq, Repr

/-- Checks of `_handle_frame` from the terminator position onward:
restricted characters, checksum presence, checksum match.  `frameData` is
everything after STX up to and including CR LF; `termPos` the index of the
terminator. -/
def parseTail (frameData : List Nat) (termPos : Nat) :
    Except FrameError (List Nat) :=
  let content := (frameData.take termPos).drop 1
  if validateMessageChars content = false then .error .restrictedChar
  else if frameData.length < termPos + 3 then .error .truncatedChecksum
  else if upperBytes (asciiIgnore ((frameData.drop (termPos + 1)).take 2)) ≠
      hex2 ((frameData.take (termPos + 1)).sum % 256) then
    .error .checksumMismatch
  else .ok content

/-- Terminator search of `_handle_frame`: the ETX position if ETX occurs,
otherwise the ETB position (`etx_pos if etx_pos != -1 else etb_pos`). -/
def findTerm (frameData : List Nat) : Option Nat :=
  match bfind frameData ETX with
  | some i => some i
  | none => bfind frameData ETB

/-- Frame-number sequencing rule of `_handle_frame`: with no frame
accepted yet (`last = 0`) any number 1-7 is valid; otherwise the number
must equal the last accepted one or `(last % 7) + 1`. -/
def seqValid (last n : Nat) : Bool :=
  if last = 0 then decide (1 ≤ n ∧ n ≤ 7)
  else decide (n = last ∨ n = last % 7 + 1)

/-- The validation sequence of `_handle_frame` in source order: empty,
too short, frame-number digit, sequencing, terminator, then `parseTail`.
Returns the accepted frame number and content, or the first error. -/
def checkFrame (last : Nat) (frameData : List Nat) :
    Except FrameError (Nat × List Nat) :=
  if frameData.length = 0 then .error .emptyFrame
  else if frameData.length < 4 then .error .frameTooShort
  else if frameData.headI < 0x30 ∨ 0x39 < frameData.headI then
    .error .badFrameNumber
  else
    let frameNum := frameData.headI - 0x30
    if seqValid last frameNum = false then .error .seqMismatch
    else
      match findTerm frameData with
      | none => .error .noTerminator
      | some termPos =>
        (parseTail frameData termPos).map (fun content => (frameNum, content))

/-- The frame codec's decode direction (the checks of `_handle_frame`
minus the sequencing rule, which belongs to the session): returns frame
number, content and terminator kind. -/
def decodeFrame (frameData : List Nat) :
    Except FrameError (Nat × List Nat × TermKind) :=
  if frameData.length = 0 then .error .emptyFrame
  else if frameData.length < 4 then .error .frameTooShort
  else if frameData.headI < 0x30 ∨ 0x39 < frameData.headI then
    .error .badFrameNumber
  else
    match bfind frameData ETX with
    | some termPos =>
      (parseTail frameData termPos).map
        (fun content => (frameData.headI - 0x30, content, TermKind.etx))
    | none =>
      match bfind frameData ETB with
      | some termPos =>
        (parseTail frameData termPos).map
          (fun content => (frameData.headI - 0x30, content, TermKind.etb))
      | none => .error .noTerminator

/-- Per-connection handler state: the fields of `ASTMProtocolHandler`
read or written by the inbound path (`frame_number` is outbound-only and
modelled with the responder). -/
structure Session where
  lastAcceptedFrame : Nat
  retransmitCount : Nat
  receivedData : List (List Nat)
  running : Bool
deriving DecidableEq, Repr

/-- State of a freshly accepted connection (`__init__`). -/
def initSession : Session :=
  { lastAcceptedFrame := 0, retransmitCount := 0, receivedData := [],
    running := true }

/-- Bytes the handler writes to the socket. -/
inductive Out
  | ack
  | nak
  | eot
  | enq
  | frame (bytes : List Nat)
deriving DecidableEq, Repr, Inhabited

/-- The shared rejection path of `_handle_frame`: send NAK, increment the
retransmit counter, and on reaching 6 send EOT and stop running. -/
def rejectFrame (s : Session) : Session × List Out :=
  let c := s.retransmitCount + 1
  if 6 ≤ c then
    ({ s with retransmitCount := c, running := false }, [Out.nak, Out.eot])
  else
    ({ s with retransmitCount := c }, [Out.nak])

/-- Models `ASTMProtocolHandler._handle_frame` on the bytes read after
STX: every failed check takes the rejection path; success resets the
retransmit counter, records the frame number and appends the content. -/
def handleFrame (s : Session) (frameData : List Nat) : Session × List Out :=
  match checkFrame s.lastAcceptedFrame frameData with
  | .error _ => rejectFrame s
  | .ok (frameNum, content) =>
    ({ s with
        retransmitCount := 0
        lastAcceptedFrame := frameNum
        receivedData := s.receivedData ++ [content] }, [Out.ack])

/-- True when `checkFrame` rejects, i.e. `_handle_frame` takes a NAK
path for this frame data. -/
def checkFails (last : Nat) (frameData : List Nat) : Bool :=
  match checkFrame last frameData with
  | .error _ => true
  | .ok _ => false

/-- Record starts with the given type byte followed by a pipe; models
`decoded.startswith('H|')` etc. (UTF-8 decoding is the identity on this
two-byte ASCII prefix). -/
def hasRecType (t : Nat) (rec : List Nat) : Bool :=
  match rec with
  | a :: b :: _ => a = t && b = 0x7C
  | _ => false

/-- Models `ASTMProtocolHandler._is_field_query`: nonempty accumulated
data with some `H|` record and no `P|` or `O|` record. -/
def isFieldQuery (receivedData : List (List Nat)) : Bool :=
  if receivedData = [] then false
  else
    receivedData.any (hasRecType 0x48) &&
      !(receivedData.any (fun r => hasRecType 0x50 r || hasRecType 0x4F r))

/-- One iteration of the `handle` loop, after the four-way dispatch on
the received byte: ENQ is ACKed; EOT clears the accumulator and, when a
field query was detected, emits the responder trace `r`; STX hands the
following bytes to `_handle_frame`; any other byte is logged and
ignored. -/
inductive Event
  | enq
  | eot (responderOut : List Out)
  | stx (frameData : List Nat)
  | other (b : Nat)

/-- Dispatch of one event against the session state. -/
def handleEvent (s : Session) (e : Event) : Session × List Out :=
  match e with
  | .enq => (s, [Out.ack])
  | .eot r =>
    ({ s with receivedData := [] },
      if isFieldQuery s.receivedData then r else [])
  | .stx fd => handleFrame s fd
  | .other _ => (s, [])

/-- The `while self.running` loop of `handle`: processes events until the
running flag is cleared, concatenating emitted bytes. -/
def run (s : Session) : List Event → Session × List Out
  | [] => (s, [])
  | e :: es =>
    if s.running then
      let r := handleEvent s e
      let r2 := run r.1 es
      (r2.1, r.2 ++ r2.2)
    else (s, [])

/-- Frame numbers accepted when processing one event. -/
def acceptedOfStep (s : Session) (e : Event) : List Nat :=
  match e with
  | .stx fd =>
    match checkFrame s.lastAcceptedFrame fd with
    | .ok nc => [nc.1]
    | .error _ => []
  | _ => []

/-- Frame numbers accepted along a run, in order. -/
def acceptedOfRun (s : Session) : List Event → List Nat
  | [] => []
  | e :: es =>
    if s.running then
      acceptedOfStep s e ++ acceptedOfRun (handleEvent s e).1 es
    else []

/-- Models `ASTMProtocolHandler._send_frame`: cycle the outbound frame
number (`(frame_number % 7) + 1`), emit the encoded frame, and report
success only when the peer's reply is ACK — EOT (receiver interrupt),
any other byte (NAK path), and timeout (`none`) all report failure.
Returns the new frame number, the emitted frame, and the success flag. -/
def sendFrame (frameNumber : Nat) (content : List Nat) (reply : Option Nat) :
    Nat × Out × Bool :=
  let fn := frameNumber % 7 + 1
  let ok :=
    match reply with
    | none => false
    | some b => if b = EOT then false else if b ≠ ACK then false else true
  (fn, Out.frame (encodeFrame fn content), ok)

/-- The per-record send loop of `send_field_query_response`: send each
record, consuming one peer reply per frame, and break on the first
failed send.  Returns the final frame number, the emitted frames, and
the unconsumed replies. -/
def sendRecords (frameNumber : Nat) (records : List (List Nat))
    (replies : List (Option Nat)) : Nat × List Out × List (Option Nat) :=
  match records with
  | [] => (frameNumber, [], replies)
  | r :: rs =>
    let st := sendFrame frameNumber r replies.headI
    if st.2.2 then
      let rest := sendRecords st.1 rs replies.tail
      (rest.1, st.2.1 :: rest.2.1, rest.2.2)
    else (st.1, [st.2.1], replies.tail)

/-- Models `send_field_query_response` in template mode: reset the frame
number to 0, send ENQ, and stop silently without EOT if the reply is a
timeout or not ACK.  Otherwise send the generated records (`none` stands
for a generation failure, which falls through), then always EOT. -/
def sendFieldQueryResponseTemplate (enqReply : Option Nat)
    (generated : Option (List (List Nat)))
    (replies : List (Option Nat)) : List Out :=
  match enqReply with
  | none => [Out.enq]
  | some b =>
    if b ≠ ACK then [Out.enq]
    else
      match generated with
      | none => [Out.enq, Out.eot]
      | some records =>
        Out.enq :: (sendRecords 0 records replies).2.1 ++ [Out.eot]

/-- Models `send_field_query_response` in legacy mode: after ENQ/ACK, the
header record is sent with its result unchecked, the per-field records
are sent with break-on-failure, the terminator record is attempted
regardless, and EOT always follows. -/
def sendFieldQueryResponseLegacy (enqReply : Option Nat)
    (headerRecord : List Nat) (fieldRecords : List (List Nat))
    (terminatorRecord : List Nat)
    (replies : List (Option Nat)) : List Out :=
  match enqReply with
  | none => [Out.enq]
  | some b =>
    if b ≠ ACK then [Out.enq]
    else
      let h := sendFrame 0 headerRecord replies.headI
      let fr := sendRecords h.1 fieldRecords replies.tail
      let t := sendFrame fr.1 terminatorRecord fr.2.2.headI
      Out.enq :: h.2.1 :: (fr.2.1 ++ [t.2.1, Out.eot])

/-- Count of outputs satisfying a predicate. -/
def countOut (p : Out → Bool) (l : List Out) : Nat :=
  (l.filter p).length

/-- True exactly for the EOT output. -/
def isEotOut : Out → Bool
  | Out.eot => true
  | _ => false

/-- True exactly for frame outputs. -/
def isFrameOut : Out → Bool
  | Out.frame _ => true
  | _ => false

/-- Example record `H|` (a header record's two-byte prefix). -/
def recH : List Nat := [0x48, 0x7C]

/-- Example record `P|` (a patient record's two-byte prefix). -/
def recP : List Nat := [0x50, 0x7C]

/-- Example record `O|` (an order record's two-byte prefix). -/
def recO : List Nat := [0x4F, 0x7C]

/-- Example record `R|` (a result record's two-byte prefix). -/
def recR : List Nat := [0x52, 0x7C]

/-- Example record `L|1|N` (a terminator record). -/
def recL : List Nat := [0x4C, 0x7C, 0x31, 0x7C, 0x4E]

/-! ### Helper lemmas about the byte-string primitives -/

theorem bmem_eq_true {l : List Nat} {b : Nat} : bmem l b = true ↔ b ∈ l := by
  induction l with
  | nil => simp [bmem]
  | cons x xs ih =>
    simp only [bmem, Bool.or_eq_true, decide_eq_true_eq, ih, List.mem_cons]
    constructor
    · rintro (h | h)
      · exact Or.inl h.symm
      · exact Or.inr h
    · rintro (h | h)
      · exact Or.inl h.symm
      · exact Or.inr h

theorem bmem_eq_false {l : List Nat} {b : Nat} : bmem l b = false ↔ b ∉ l := by
  constructor
  · intro h hmem
    rw [bmem_eq_true.mpr hmem] at h
    simp at h
  · intro h
    cases hb : bmem l b
    · rfl
    · exact absurd (bmem_eq_true.mp hb) h

theorem containsAnyOf_eq_false {c rs : List Nat} :
    containsAnyOf c rs = false ↔ ∀ r ∈ rs, bmem c r = false := by
  induction rs with
  | nil => simp [containsAnyOf]
  | cons r rs ih => simp [containsAnyOf, ih]

theorem validateMessageChars_eq_true {content : List Nat} :
    validateMessageChars content = true ↔
      ∀ r ∈ RESTRICTED_CHARS, r ∉ rstripLF content := by
  simp only [validateMessageChars, Bool.not_eq_true', containsAnyOf_eq_false]
  constructor
  · intro h r hr
    exact bmem_eq_false.mp (h r hr)
  · intro h r hr
    exact bmem_eq_false.mpr (h r hr)

theorem mem_rstripLF {l : List Nat} {a : Nat} (h : a ∈ rstripLF l) : a ∈ l := by
  unfold rstripLF at h
  rw [List.mem_reverse] at h
  have := (List.dropWhile_sublist (l := l.reverse) (· = LF)).subset h
  rwa [List.mem_reverse] at this

theorem dropWhile_eq_self_of {l : List Nat} {p : Nat → Bool}
    (h : ∀ x ∈ l, p x = false) : l.dropWhile p = l := by
  cases l with
  | nil => rfl
  | cons x xs =>
    rw [List.dropWhile_cons]
    simp [h x (by simp)]

theorem rstripLF_eq_self {l : List Nat} (h : ∀ x ∈ l, x ≠ LF) :
    rstripLF l = l := by
  unfold rstripLF
  rw [dropWhile_eq_self_of, List.reverse_reverse]
  intro x hx
  rw [List.mem_reverse] at hx
  simp [h x hx]

theorem rstripLF_append_LF (l : List Nat) :
    rstripLF (l ++ [LF]) = rstripLF l := by
  unfold rstripLF
  rw [List.reverse_append]
  simp [List.dropWhile_cons]

/-! ### Helper lemmas about hex rendering and slicing an encoded frame -/

theorem hexDigit_le {k : Nat} (h : k < 16) : hexDigit k ≤ 70 := by
  unfold hexDigit
  split <;> omega

theorem asciiIgnore_pair {a b : Nat} (ha : a < 128) (hb : b < 128) :
    asciiIgnore [a, b] = [a, b] := by
  simp [asciiIgnore, ha, hb]

theorem upperByte_eq_self {a : Nat} (h : a < 97) : upperByte a = a := by
  unfold upperByte
  rw [if_neg (by omega)]

theorem hex2_ascii_upper (m : Nat) :
    upperBytes (asciiIgnore (hex2 m)) = hex2 m := by
  have h1 := hexDigit_le (Nat.mod_lt (m / 16) (by omega))
  have h2 := hexDigit_le (Nat.mod_lt m (by omega))
  unfold hex2
  rw [asciiIgnore_pair (by omega) (by omega)]
  unfold upperBytes
  simp [upperByte_eq_self (show hexDigit (m / 16 % 16) < 97 by omega),
        upperByte_eq_self (show hexDigit (m % 16) < 97 by omega)]

theorem take_len (l r : List Nat) : (l ++ r).take l.length = l := by
  induction l with
  | nil => simp
  | cons x xs ih => simp [ih]

theorem drop_len (l r : List Nat) : (l ++ r).drop l.length = r := by
  induction l with
  | nil => simp
  | cons x xs ih => simp [ih]

theorem bfind_notin_append {l : List Nat} {b : Nat} (h : ∀ x ∈ l, x ≠ b)
    (r : List Nat) : bfind (l ++ b :: r) b = some l.length := by
  induction l with
  | nil => simp [bfind]
  | cons x xs ih =>
    simp only [List.cons_append, bfind, List.append_eq]
    rw [if_neg (h x (by simp))]
    rw [ih (fun y hy => h y (by simp [hy]))]
    rfl

theorem frameBody_length (n : Nat) (C : List Nat) :
    (frameBody n C).length = C.length + 6 := by
  simp [frameBody, hex2]

theorem frameBody_headI (n : Nat) (C : List Nat) :
    (frameBody n C).headI = 0x30 + n := rfl

theorem bfind_frameBody_etx {n : Nat} (C : List Nat) (h1 : 1 ≤ n)
    (hC : ∀ x ∈ C, x ≠ ETX) :
    bfind (frameBody n C) ETX = some (C.length + 1) := by
  unfold frameBody
  simp only [bfind]
  rw [if_neg (show ¬(0x30 + n = ETX) by unfold ETX; omega)]
  rw [bfind_notin_append hC]
  rfl

theorem frameBody_take1 (n : Nat) (C : List Nat) :
    (frameBody n C).take (C.length + 1) = (0x30 + n) :: C := by
  unfold frameBody
  rw [List.take_succ_cons]
  congr 1
  exact take_len C _

theorem frameBody_take2 (n : Nat) (C : List Nat) :
    (frameBody n C).take (C.length + 2) = (0x30 + n) :: (C ++ [ETX]) := by
  unfold frameBody
  rw [List.take_succ_cons]
  congr 1
  rw [List.append_cons]
  rw [show C.length + 1 = (C ++ [ETX]).length by simp]
  exact take_len (C ++ [ETX]) _

theorem frameBody_drop2 (n : Nat) (C : List Nat) :
    (frameBody n C).drop (C.length + 2) =
      hex2 (((0x30 + n) :: (C ++ [ETX])).sum % 256) ++ [CR, LF] := by
  unfold frameBody
  rw [show C.length + 2 = (C.length + 1) + 1 from rfl, List.drop_succ_cons]
  rw [List.append_cons]
  rw [show C.length + 1 = (C ++ [ETX]).length by simp]
  exact drop_len (C ++ [ETX]) _

theorem take2_hex (m : Nat) (r : List Nat) : (hex2 m ++ r).take 2 = hex2 m := by
  simp [hex2]

/-! ### The codec and the handler on a well-formed encoded frame -/

theorem parseTail_frameBody (n : Nat) (C : List Nat)
    (hval : validateMessageChars C = true) :
    parseTail (frameBody n C) (C.length + 1) = .ok C := by
  unfold parseTail
  have hcontent : ((frameBody n C).take (C.length + 1)).drop 1 = C := by
    rw [frameBody_take1]
    rfl
  rw [hcontent]
  dsimp only
  rw [hval]
  rw [if_neg (by simp)]
  rw [if_neg (by rw [frameBody_length]; omega)]
  rw [show C.length + 1 + 1 = C.length + 2 from rfl]
  rw [frameBody_drop2, take2_hex, hex2_ascii_upper, frameBody_take2]
  rw [if_neg (by simp)]

theorem checkFrame_frameBody (last n : Nat) (C : List Nat)
    (h1 : 1 ≤ n) (h7 : n ≤ 7) (hETX : ∀ x ∈ C, x ≠ ETX)
    (hval : validateMessageChars C = true)
    (hseq : seqValid last n = true) :
    checkFrame last (frameBody n C) = .ok (n, C) := by
  unfold checkFrame
  rw [if_neg (by rw [frameBody_length]; omega)]
  rw [if_neg (by rw [frameBody_length]; omega)]
  rw [frameBody_headI]
  rw [if_neg (by omega)]
  rw [show 0x30 + n - 0x30 = n by omega]
  dsimp only
  rw [hseq]
  rw [if_neg (by simp)]
  have hft : findTerm (frameBody n C) = some (C.length + 1) := by
    unfold findTerm
    rw [bfind_frameBody_etx C h1 hETX]
  rw [hft]
  dsimp only
  rw [parseTail_frameBody n C hval]
  rfl

theorem decodeFrame_frameBody (n : Nat) (C : List Nat)
    (h1 : 1 ≤ n) (h7 : n ≤ 7) (hETX : ∀ x ∈ C, x ≠ ETX)
    (hval : validateMessageChars C = true) :
    decodeFrame (frameBody n C) = .ok (n, C, TermKind.etx) := by
  unfold decodeFrame
  rw [if_neg (by rw [frameBody_length]; omega)]
  rw [if_neg (by rw [frameBody_length]; omega)]
  rw [frameBody_headI]
  rw [if_neg (by omega)]
  rw [bfind_frameBody_etx C h1 hETX]
  dsimp only
  rw [parseTail_frameBody n C hval]
  rw [show 0x30 + n - 0x30 = n by omega]
  rfl

theorem validate_of_no_restricted {C : List Nat}
    (hC : ∀ b ∈ C, b ∉ RESTRICTED_CHARS) :
    validateMessageChars C = true := by
  rw [validateMessageChars_eq_true]
  intro r hr hmem
  exact hC r (mem_rstripLF hmem) hr

theorem no_etx_of_no_restricted {C : List Nat}
    (hC : ∀ b ∈ C, b ∉ RESTRICTED_CHARS) : ∀ x ∈ C, x ≠ ETX := by
  intro x hx hetx
  exact hC x hx (by rw [hetx]; unfold ETX RESTRICTED_CHARS; simp)

theorem handleFrame_frameBody (s : Session) (n : Nat) (C : List Nat)
    (h1 : 1 ≤ n) (h7 : n ≤ 7) (hETX : ∀ x ∈ C, x ≠ ETX)
    (hval : validateMessageChars C = true)
    (hseq : seqValid s.lastAcceptedFrame n = true) :
    handleFrame s (frameBody n C) =
      ({ s with
          retransmitCount := 0
          lastAcceptedFrame := n
          receivedData := s.receivedData ++ [C] }, [Out.ack]) := by
  unfold handleFrame
  rw [checkFrame_frameBody s.lastAcceptedFrame n C h1 h7 hETX hval hseq]

/-! ### Inversion of a successful frame check, and the rejection path -/

theorem checkFrame_ok_inv {last : Nat} {fd : List Nat} {n : Nat} {c : List Nat}
    (h : checkFrame last fd = .ok (n, c)) :
    seqValid last n = true ∧
      ∃ tp, findTerm fd = some tp ∧ c = (fd.take tp).drop 1 ∧
        validateMessageChars c = true := by
  unfold checkFrame at h
  split at h
  · exact absurd h (by simp)
  split at h
  · exact absurd h (by simp)
  split at h
  · exact absurd h (by simp)
  dsimp only at h
  split at h
  · exact absurd h (by simp)
  next hseq =>
  split at h
  next hft => exact absurd h (by simp)
  next tp hft =>
    unfold parseTail at h
    dsimp only at h
    split at h
    · exact absurd h (by simp [Except.map])
    next hval =>
    split at h
    · exact absurd h (by simp [Except.map])
    split at h
    · exact absurd h (by simp [Except.map])
    rw [show Except.map (fun content => (fd.headI - 0x30, content))
          (Except.ok ((fd.take tp).drop 1) : Except FrameError (List Nat)) =
        Except.ok (fd.headI - 0x30, (fd.take tp).drop 1) from rfl] at h
    have hn : fd.headI - 0x30 = n ∧ (fd.take tp).drop 1 = c := by
      have := h
      simp only [Except.ok.injEq, Prod.mk.injEq] at this
      exact this
    refine ⟨?_, tp, hft, hn.2.symm, ?_⟩
    · rw [← hn.1]
      cases hs : seqValid last (fd.headI - 0x30)
      · exact absurd hs hseq
      · rfl
    · rw [← hn.2]
      cases hv : validateMessageChars ((fd.take tp).drop 1)
      · exact absurd hv hval
      · rfl

theorem handleFrame_of_error {s : Session} {fd : List Nat}
    (h : checkFails s.lastAcceptedFrame fd = true) :
    handleFrame s fd = rejectFrame s := by
  unfold checkFails at h
  unfold handleFrame
  cases hc : checkFrame s.lastAcceptedFrame fd with
  | error e => rfl
  | ok nc =>
    rw [hc] at h
    simp at h

theorem rejectFrame_low {s : Session} (h : s.retransmitCount + 1 < 6) :
    rejectFrame s =
      ({ s with retransmitCount := s.retransmitCount + 1 }, [Out.nak]) := by
  unfold rejectFrame
  rw [if_neg (by omega)]

theorem rejectFrame_high {s : Session} (h : 6 ≤ s.retransmitCount + 1) :
    rejectFrame s =
      ({ s with retransmitCount := s.retransmitCount + 1, running := false },
       [Out.nak, Out.eot]) := by
  unfold rejectFrame
  rw [if_pos h]

theorem seqValid_bounds {last n : Nat} (h : seqValid last n = true)
    (hl : last ≤ 7) : 1 ≤ n ∧ n ≤ 7 := by
  unfold seqValid at h
  split at h
  · simpa using h
  · simp only [decide_eq_true_eq] at h
    next hne =>
    rcases h with h | h <;> omega

/-! ### Lemmas about the handler loop -/

theorem run_stopped {s : Session} (h : s.running = false) (es : List Event) :
    run s es = (s, []) := by
  cases es with
  | nil => rfl
  | cons e es => simp [run, h]

theorem run_cons {s : Session} (h : s.running = true) (e : Event)
    (es : List Event) :
    run s (e :: es) =
      ((run (handleEvent s e).1 es).1,
       (handleEvent s e).2 ++ (run (handleEvent s e).1 es).2) := by
  simp [run, h]

theorem run_rejects_partial (fds : List (List Nat)) : ∀ (s : Session),
    s.running = true →
    (∀ fd ∈ fds, checkFails s.lastAcceptedFrame fd = true) →
    s.retransmitCount + fds.length < 6 →
    run s (fds.map Event.stx) =
      ({ s with retransmitCount := s.retransmitCount + fds.length },
       List.replicate fds.length Out.nak) := by
  induction fds with
  | nil => intro s hrun _ _; simp [run]
  | cons fd fds ih =>
    intro s hrun hall hlen
    simp only [List.length_cons] at hlen
    rw [List.map_cons, run_cons hrun]
    have hstep : handleEvent s (Event.stx fd) =
        ({ s with retransmitCount := s.retransmitCount + 1 }, [Out.nak]) := by
      show handleFrame s fd = _
      rw [handleFrame_of_error (hall fd (by simp))]
      exact rejectFrame_low (by omega)
    rw [hstep]
    have hrec := ih { s with retransmitCount := s.retransmitCount + 1 }
      hrun (fun f hf => hall f (by simp [hf]))
      (show s.retransmitCount + 1 + fds.length < 6 by omega)
    rw [hrec]
    dsimp only
    simp only [List.length_cons]
    rw [show s.retransmitCount + 1 + fds.length =
        s.retransmitCount + (fds.length + 1) by omega]
    rw [List.replicate_succ]
    rfl

theorem run_rejects_abort (fds : List (List Nat)) : ∀ (s : Session),
    s.running = true →
    (∀ fd ∈ fds, checkFails s.lastAcceptedFrame fd = true) →
    s.retransmitCount + fds.length = 6 → fds ≠ [] →
    run s (fds.map Event.stx) =
      ({ s with retransmitCount := 6, running := false },
       List.replicate (fds.length - 1) Out.nak ++ [Out.nak, Out.eot]) := by
  induction fds with
  | nil => intro s _ _ _ hne; exact absurd rfl hne
  | cons fd fds ih =>
    intro s hrun hall hlen _
    simp only [List.length_cons] at hlen
    rw [List.map_cons, run_cons hrun]
    cases fds with
    | nil =>
      have hstep : handleEvent s (Event.stx fd) =
          ({ s with retransmitCount := s.retransmitCount + 1, running := false }, [Out.nak, Out.eot]) := by
        show handleFrame s fd = _
        rw [handleFrame_of_error (hall fd (by simp))]
        exact rejectFrame_high (by simp at hlen; omega)
      rw [hstep]
      rw [run_stopped (by rfl)]
      rw [show s.retransmitCount + 1 = 6 by simp at hlen; omega]
      rfl
    | cons fd2 fds2 =>
      have hstep : handleEvent s (Event.stx fd) =
          ({ s with retransmitCount := s.retransmitCount + 1 }, [Out.nak]) := by
        show handleFrame s fd = _
        rw [handleFrame_of_error (hall fd (by simp))]
        exact rejectFrame_low (by simp at hlen; omega)
      rw [hstep]
      have hrec := ih { s with retransmitCount := s.retransmitCount + 1 }
        hrun (fun f hf => hall f (by simp [hf]))
        (show s.retransmitCount + 1 + (fd2 :: fds2).length = 6 by
          simp at hlen ⊢; omega)
        (by simp)
      rw [hrec]
      dsimp only
      simp only [List.length_cons, Nat.add_sub_cancel]
      rw [List.replicate_succ]
      rfl

/-! ### The reachable-state invariant -/

/-- Invariant of every reachable session state: the last accepted frame
number stays in 0-7, the retransmit counter stays in 0-6, and a counter
of 6 forces the running flag off. -/
def Inv (s : Session) : Prop :=
  s.lastAcceptedFrame ≤ 7 ∧ s.retransmitCount ≤ 6 ∧
    (s.retransmitCount = 6 → s.running = false)

theorem inv_step {s : Session} (e : Event) (hs : Inv s)
    (hrun : s.running = true) : Inv (handleEvent s e).1 := by
  obtain ⟨hl, hc, h6⟩ := hs
  cases e with
  | enq => exact ⟨hl, hc, h6⟩
  | eot r => exact ⟨hl, hc, fun h => h6 h⟩
  | other b => exact ⟨hl, hc, h6⟩
  | stx fd =>
    show Inv (handleFrame s fd).1
    unfold handleFrame
    cases hcf : checkFrame s.lastAcceptedFrame fd with
    | ok nc =>
      obtain ⟨n, c⟩ := nc
      have hseq := (checkFrame_ok_inv hcf).1
      have hb := seqValid_bounds hseq hl
      dsimp only
      refine ⟨hb.2, ?_, ?_⟩
      · show (0 : Nat) ≤ 6
        omega
      · intro h
        exact absurd (show (0 : Nat) = 6 from h) (by omega)
    | error e =>
      have hne : s.retransmitCount ≠ 6 := fun h => by
        rw [h6 h] at hrun; cases hrun
      dsimp only
      unfold rejectFrame
      dsimp only
      split
      · next hge =>
        refine ⟨hl, ?_, fun _ => rfl⟩
        show s.retransmitCount + 1 ≤ 6
        omega
      · next hge =>
        refine ⟨hl, ?_, ?_⟩
        · show s.retransmitCount + 1 ≤ 6
          omega
        · intro h
          exact absurd (show s.retransmitCount + 1 = 6 from h) (by omega)

theorem last_zero_step {s : Session} (e : Event) (hs : Inv s) :
    (handleEvent s e).1.lastAcceptedFrame = 0 ↔
      (s.lastAcceptedFrame = 0 ∧ acceptedOfStep s e = []) := by
  cases e with
  | enq => simp [handleEvent, acceptedOfStep]
  | eot r => simp [handleEvent, acceptedOfStep]
  | other b => simp [handleEvent, acceptedOfStep]
  | stx fd =>
    show (handleFrame s fd).1.lastAcceptedFrame = 0 ↔
      (s.lastAcceptedFrame = 0 ∧ acceptedOfStep s (Event.stx fd) = [])
    unfold handleFrame acceptedOfStep
    cases hcf : checkFrame s.lastAcceptedFrame fd with
    | ok nc =>
      obtain ⟨n, c⟩ := nc
      have hseq := (checkFrame_ok_inv hcf).1
      have hb := seqValid_bounds hseq hs.1
      dsimp only
      rw [hcf]
      dsimp only
      constructor
      · intro h
        exact absurd h (by omega)
      · rintro ⟨_, h⟩
        simp at h
    | error e =>
      dsimp only
      rw [hcf]
      dsimp only
      unfold rejectFrame
      dsimp only
      split
      · show s.lastAcceptedFrame = 0 ↔
          (s.lastAcceptedFrame = 0 ∧ ([] : List Nat) = [])
        simp
      · show s.lastAcceptedFrame = 0 ↔
          (s.lastAcceptedFrame = 0 ∧ ([] : List Nat) = [])
        simp

theorem run_inv (es : List Event) : ∀ (s : Session), Inv s →
    Inv (run s es).1 ∧
      ((run s es).1.lastAcceptedFrame = 0 ↔
        (s.lastAcceptedFrame = 0 ∧ acceptedOfRun s es = [])) := by
  induction es with
  | nil => intro s hs; exact ⟨hs, by simp [run, acceptedOfRun]⟩
  | cons e es ih =>
    intro s hs
    cases hrun : s.running with
    | false =>
      rw [run_stopped hrun]
      unfold acceptedOfRun
      rw [hrun]
      simp [hs]
    | true =>
      rw [run_cons hrun]
      unfold acceptedOfRun
      rw [hrun]
      have hrec := ih (handleEvent s e).1 (inv_step e hs hrun)
      refine ⟨hrec.1, ?_⟩
      simp only
      rw [show (if True then acceptedOfStep s e ++
            acceptedOfRun (handleEvent s e).1 es else []) =
          acceptedOfStep s e ++ acceptedOfRun (handleEvent s e).1 es by simp]
      rw [hrec.2, last_zero_step e hs]
      rw [List.append_eq_nil]
      tauto

/-! ### Lemmas about the outbound responder -/

theorem countOut_cons (p : Out → Bool) (a : Out) (l : List Out) :
    countOut p (a :: l) = (if p a then 1 else 0) + countOut p l := by
  simp only [countOut, List.filter_cons]
  split <;> simp [Nat.add_comm]

theorem countOut_append (p : Out → Bool) (l1 l2 : List Out) :
    countOut p (l1 ++ l2) = countOut p l1 + countOut p l2 := by
  simp [countOut, List.filter_append]

theorem sendFrame_out (fn : Nat) (c : List Nat) (rep : Option Nat) :
    (sendFrame fn c rep).2.1 = Out.frame (encodeFrame (fn % 7 + 1) c) := rfl

theorem sendRecords_no_eot (records : List (List Nat)) : ∀ (fn : Nat)
    (replies : List (Option Nat)),
    countOut isEotOut (sendRecords fn records replies).2.1 = 0 := by
  induction records with
  | nil => intro fn replies; rfl
  | cons r rs ih =>
    intro fn replies
    unfold sendRecords
    dsimp only
    split
    · rw [countOut_cons, sendFrame_out]
      rw [ih]
      simp [isEotOut]
    · rw [countOut_cons, sendFrame_out]
      simp [isEotOut, countOut]

theorem template_eot_count (generated : Option (List (List Nat)))
    (replies : List (Option Nat)) :
    countOut isEotOut
      (sendFieldQueryResponseTemplate (some ACK) generated replies) = 1 := by
  unfold sendFieldQueryResponseTemplate
  dsimp only
  rw [if_neg (by simp)]
  cases generated with
  | none => rfl
  | some records =>
    dsimp only
    rw [countOut_append, countOut_cons, sendRecords_no_eot]
    simp [isEotOut, countOut]

theorem legacy_eot_count (hdr : List Nat) (fields : List (List Nat))
    (term : List Nat) (replies : List (Option Nat)) :
    countOut isEotOut
      (sendFieldQueryResponseLegacy (some ACK) hdr fields term replies) = 1 := by
  unfold sendFieldQueryResponseLegacy
  dsimp only
  rw [if_neg (by simp)]
  rw [countOut_cons, countOut_cons, countOut_append, sendFrame_out,
    sendFrame_out, sendRecords_no_eot]
  simp [isEotOut, countOut]

theorem sendRecords_stop {fn : Nat} {r : List Nat} {rs : List (List Nat)}
    {replies : List (Option Nat)}
    (h : (sendFrame fn r replies.headI).2.2 = false) :
    (sendRecords fn (r :: rs) replies).2.1 = [(sendFrame fn r replies.headI).2.1] := by
  unfold sendRecords
  dsimp only
  rw [if_neg]
  rw [h]
  simp

/-! ### Claim theorems -/

/-- C1: checksum round-trip.  For every content byte string with no
restricted characters and every frame number 1-7, decoding the encoded
frame succeeds with the same frame number, the same content and an ETX
terminator, and the inbound handler (sequencing permitting) accepts the
frame with ACK, appending the content. -/
theorem checksum_roundtrip : ∀ (n : Nat) (C : List Nat) (s : Session),
    1 ≤ n → n ≤ 7 → (∀ b ∈ C, b ∉ RESTRICTED_CHARS) →
    seqValid s.lastAcceptedFrame n = true →
    decodeFrame ((encodeFrame n C).drop 1) = .ok (n, C, TermKind.etx) ∧
    handleFrame s ((encodeFrame n C).drop 1) =
      ({ s with
          retransmitCount := 0
          lastAcceptedFrame := n
          receivedData := s.receivedData ++ [C] }, [Out.ack]) := by
  intro n C s h1 h7 hC hseq
  have hETX := no_etx_of_no_restricted hC
  have hval := validate_of_no_restricted hC
  exact ⟨decodeFrame_frameBody n C h1 h7 hETX hval,
         handleFrame_frameBody s n C h1 h7 hETX hval hseq⟩

/-- Witness for C1 at frame number 1, content `L|1|N`, fresh session. -/
theorem checksum_roundtrip_witness :
    (1 ≤ 1 ∧ 1 ≤ 7 ∧ (∀ b ∈ recL, b ∉ RESTRICTED_CHARS) ∧
      seqValid initSession.lastAcceptedFrame 1 = true) ∧
    decodeFrame ((encodeFrame 1 recL).drop 1) = .ok (1, recL, TermKind.etx) ∧
    handleFrame initSession ((encodeFrame 1 recL).drop 1) =
      ({ initSession with
          retransmitCount := 0
          lastAcceptedFrame := 1
          receivedData := initSession.receivedData ++ [recL] }, [Out.ack]) :=
  ⟨⟨by decide, by decide, by decide, by decide⟩,
   (checksum_roundtrip 1 recL initSession (by decide) (by decide) (by decide)
     (by decide)).1,
   (checksum_roundtrip 1 recL initSession (by decide) (by decide) (by decide)
     (by decide)).2⟩

/-- C2 counterexample: a valid frame whose content is `A` followed by two
trailing LF bytes is accepted with ACK, because `rstrip` removes every
trailing LF; the claim says such a frame is rejected with NAK. -/
theorem restricted_char_double_lf_accepted :
    handleFrame initSession ((encodeFrame 1 [0x41, LF, LF]).drop 1) =
      ({ lastAcceptedFrame := 1, retransmitCount := 0,
         receivedData := [[0x41, LF, LF]], running := true }, [Out.ack]) ∧
    Out.ack ≠ Out.nak :=
  ⟨by decide, by decide⟩

/-- C2 (amended): the check strips all trailing LF bytes, not exactly
one.  A frame whose content still contains LF after stripping every
trailing LF is rejected with NAK; a frame whose content ends in a single
LF (with otherwise unrestricted content) is accepted. -/
theorem restricted_char_rejection_amended :
    (∀ (s : Session) (fd : List Nat) (tp : Nat), findTerm fd = some tp →
      LF ∈ rstripLF ((fd.take tp).drop 1) →
      handleFrame s fd = rejectFrame s ∧
        (rejectFrame s).2.headI = Out.nak) ∧
    (∀ (s : Session) (n : Nat) (C : List Nat), 1 ≤ n → n ≤ 7 →
      (∀ b ∈ C, b ∉ RESTRICTED_CHARS) →
      seqValid s.lastAcceptedFrame n = true →
      handleFrame s ((encodeFrame n (C ++ [LF])).drop 1) =
        ({ s with
            retransmitCount := 0
            lastAcceptedFrame := n
            receivedData := s.receivedData ++ [C ++ [LF]] }, [Out.ack])) := by
  constructor
  · intro s fd tp hft hlf
    have hrej : checkFails s.lastAcceptedFrame fd = true := by
      unfold checkFails
      cases hc : checkFrame s.lastAcceptedFrame fd with
      | error e => rfl
      | ok nc =>
        exfalso
        obtain ⟨n, c⟩ := nc
        obtain ⟨-, tp2, hft2, hc2, hval⟩ := checkFrame_ok_inv hc
        rw [hft] at hft2
        injection hft2 with heq
        subst heq
        rw [← hc2] at hlf
        exact (validateMessageChars_eq_true.mp hval) LF (by decide) hlf
    refine ⟨handleFrame_of_error hrej, ?_⟩
    unfold rejectFrame
    dsimp only
    split <;> rfl
  · intro s n C h1 h7 hC hseq
    have hLFr : LF ∈ RESTRICTED_CHARS := by decide
    have hnoLF : ∀ x ∈ C, x ≠ LF := fun x hx hfx => hC x hx (hfx ▸ hLFr)
    have hETX : ∀ x ∈ C ++ [LF], x ≠ ETX := by
      intro x hx
      rcases List.mem_append.mp hx with h | h
      · exact no_etx_of_no_restricted hC x h
      · simp at h
        subst h
        decide
    have hval : validateMessageChars (C ++ [LF]) = true := by
      rw [validateMessageChars_eq_true]
      rw [rstripLF_append_LF, rstripLF_eq_self hnoLF]
      intro r hr hmem
      exact hC r hmem hr
    exact handleFrame_frameBody s n (C ++ [LF]) h1 h7 hETX hval hseq

/-- Witness for C2 (amended), part one at a frame whose content is
`A LF B` (an interior LF), part two through the same rejection data. -/
theorem restricted_char_rejection_witness :
    (findTerm (frameBody 1 [0x41, LF, 0x42]) = some 4 ∧
      LF ∈ rstripLF (((frameBody 1 [0x41, LF, 0x42]).take 4).drop 1)) ∧
    handleFrame initSession (frameBody 1 [0x41, LF, 0x42]) =
      rejectFrame initSession ∧
    (rejectFrame initSession).2.headI = Out.nak :=
  ⟨⟨by decide, by decide⟩,
   (restricted_char_rejection_amended.1 initSession
     (frameBody 1 [0x41, LF, 0x42]) 4 (by decide) (by decide)).1,
   (restricted_char_rejection_amended.1 initSession
     (frameBody 1 [0x41, LF, 0x42]) 4 (by decide) (by decide)).2⟩

/-- C3 counterexample: after accepting frame 3, completing the
transmission with EOT and accepting a new ENQ, a first frame numbered 1
is rejected with NAK, because the last-accepted frame number is never
reset; the claim says any number 1-7 would be accepted. -/
theorem sequencing_not_reset_after_eot :
    run initSession [Event.enq, Event.stx ((encodeFrame 3 recL).drop 1),
      Event.eot [], Event.enq, Event.stx ((encodeFrame 1 recL).drop 1)] =
      ({ lastAcceptedFrame := 3, retransmitCount := 1, receivedData := [],
         running := true }, [Out.ack, Out.ack, Out.ack, Out.nak]) ∧
    Out.nak ≠ Out.ack :=
  ⟨by decide, by decide⟩

/-- C3 (amended): the frame-number validity predicate depends on the last
frame number accepted on the connection, which survives the EOT that ends
a transmission; after EOT and a new ENQ, a first frame is accepted only if
its number equals the previous last-accepted number k or `(k % 7) + 1`. -/
theorem sequencing_reset_amended : ∀ (s : Session) (r : List Out)
    (fd : List Nat) (n : Nat) (c : List Nat),
    s.lastAcceptedFrame ≠ 0 →
    checkFrame ((handleEvent ((handleEvent s (Event.eot r)).1)
        Event.enq).1).lastAcceptedFrame fd = .ok (n, c) →
    n = s.lastAcceptedFrame ∨ n = s.lastAcceptedFrame % 7 + 1 := by
  intro s r fd n c hne hok
  have hpres : ((handleEvent ((handleEvent s (Event.eot r)).1)
      Event.enq).1).lastAcceptedFrame = s.lastAcceptedFrame := rfl
  rw [hpres] at hok
  have hseq := (checkFrame_ok_inv hok).1
  unfold seqValid at hseq
  rw [if_neg hne] at hseq
  simpa using hseq

/-- Witness for C3 (amended): a session whose last accepted frame is 3
accepts frame 4 after an EOT and a fresh ENQ. -/
theorem sequencing_reset_witness :
    ((⟨3, 0, [], true⟩ : Session).lastAcceptedFrame ≠ 0 ∧
      checkFrame ((handleEvent ((handleEvent (⟨3, 0, [], true⟩ : Session)
          (Event.eot [])).1) Event.enq).1).lastAcceptedFrame
        (frameBody 4 recL) = .ok (4, recL)) ∧
    (4 = (⟨3, 0, [], true⟩ : Session).lastAcceptedFrame ∨
      4 = (⟨3, 0, [], true⟩ : Session).lastAcceptedFrame % 7 + 1) :=
  ⟨⟨by decide, by rfl⟩,
   sequencing_reset_amended ⟨3, 0, [], true⟩ [] (frameBody 4 recL) 4 recL
     (by decide) (by rfl)⟩

/-- C4: retransmit bound.  Starting from a zero retransmit counter, six
consecutive rejected frames produce five NAKs then NAK with EOT, clear the
running flag, and the session then ignores every further event; fewer
than six consecutive rejections produce only NAKs and leave the session
running. -/
theorem retransmit_bound : ∀ (s : Session) (fds : List (List Nat)),
    s.retransmitCount = 0 → s.running = true →
    (∀ fd ∈ fds, checkFails s.lastAcceptedFrame fd = true) →
    (fds.length = 6 →
      run s (fds.map Event.stx) =
        ({ s with retransmitCount := 6, running := false },
         List.replicate 5 Out.nak ++ [Out.nak, Out.eot]) ∧
      ∀ es, run { s with retransmitCount := 6, running := false } es =
        ({ s with retransmitCount := 6, running := false }, [])) ∧
    (fds.length < 6 →
      run s (fds.map Event.stx) =
        ({ s with retransmitCount := fds.length },
         List.replicate fds.length Out.nak) ∧
      ({ s with retransmitCount := fds.length } : Session).running = true) := by
  intro s fds h0 hrun hall
  constructor
  · intro h6
    constructor
    · have habort := run_rejects_abort fds s hrun hall (by omega)
        (by intro h; rw [h] at h6; simp at h6)
      rw [h6] at habort
      exact habort
    · intro es
      exact run_stopped rfl es
  · intro hlt
    refine ⟨?_, hrun⟩
    have hpart := run_rejects_partial fds s hrun hall (by omega)
    rw [h0, Nat.zero_add] at hpart
    exact hpart

/-- Witness for C4: six empty frame reads on a fresh session. -/
theorem retransmit_bound_witness :
    ((List.replicate 6 ([] : List Nat)).length = 6 ∧
      ∀ fd ∈ List.replicate 6 ([] : List Nat),
        checkFails initSession.lastAcceptedFrame fd = true) ∧
    run initSession ((List.replicate 6 ([] : List Nat)).map Event.stx) =
      ({ initSession with retransmitCount := 6, running := false },
       List.replicate 5 Out.nak ++ [Out.nak, Out.eot]) :=
  ⟨⟨by decide, by decide⟩,
   ((retransmit_bound initSession (List.replicate 6 []) rfl rfl
     (by decide)).1 (by decide)).1⟩

/-- C5: sequencing monotonicity and wraparound.  Once a frame has been
accepted, a frame passes the check only with the same number or the
successor modulo 7; and eight consecutive valid frames numbered
1,2,3,4,5,6,7,1 are all accepted in one transmission. -/
theorem sequencing_monotonicity :
    (∀ (last n : Nat) (fd c : List Nat), last ≠ 0 →
      checkFrame last fd = .ok (n, c) → n = last ∨ n = last % 7 + 1) ∧
    run initSession (Event.enq ::
        ([1, 2, 3, 4, 5, 6, 7, 1].map
          (fun k => Event.stx ((encodeFrame k recL).drop 1)))) =
      ({ lastAcceptedFrame := 1, retransmitCount := 0,
         receivedData := List.replicate 8 recL, running := true },
       Out.ack :: List.replicate 8 Out.ack) ∧
    acceptedOfRun initSession (Event.enq ::
        ([1, 2, 3, 4, 5, 6, 7, 1].map
          (fun k => Event.stx ((encodeFrame k recL).drop 1)))) =
      [1, 2, 3, 4, 5, 6, 7, 1] := by
  refine ⟨?_, by decide, by decide⟩
  intro last n fd c hne hok
  have hseq := (checkFrame_ok_inv hok).1
  unfold seqValid at hseq
  rw [if_neg hne] at hseq
  simpa using hseq

/-- Witness for C5: after accepting frame 7, frame 1 passes the check
(wraparound). -/
theorem sequencing_monotonicity_witness :
    ((7 : Nat) ≠ 0 ∧ checkFrame 7 (frameBody 1 recL) = .ok (1, recL)) ∧
    ((1 : Nat) = 7 ∨ (1 : Nat) = 7 % 7 + 1) :=
  ⟨⟨by decide, by rfl⟩,
   sequencing_monotonicity.1 7 1 (frameBody 1 recL) recL (by decide)
     (by rfl)⟩

/-- C6: query classification.  A completed transmission is classified as
a field query exactly when some accumulated record starts with `H|` and
none starts with `P|` or `O|`; in particular `H` plus `L` alone is a
query, and `H,P,O,R,L` is not. -/
theorem query_classification :
    (∀ rd : List (List Nat), isFieldQuery rd = true ↔
      ((∃ r ∈ rd, hasRecType 0x48 r = true) ∧
        ∀ r ∈ rd, hasRecType 0x50 r = false ∧ hasRecType 0x4F r = false)) ∧
    isFieldQuery [recH, recL] = true ∧
    isFieldQuery [recH, recP, recO, recR, recL] = false := by
  refine ⟨?_, by decide, by decide⟩
  intro rd
  unfold isFieldQuery
  by_cases hrd : rd = []
  · subst hrd
    simp
  · rw [if_neg hrd]
    simp only [Bool.and_eq_true, List.any_eq_true, Bool.not_eq_true',
      List.any_eq_false, Bool.or_eq_false_iff]
    constructor
    · rintro ⟨⟨r, hr, hh⟩, hall⟩
      refine ⟨⟨r, hr, hh⟩, fun x hx => ?_⟩
      have := hall x hx
      simp only [Bool.or_eq_true, not_or, Bool.not_eq_true] at this
      exact this
    · rintro ⟨⟨r, hr, hh⟩, hall⟩
      refine ⟨⟨r, hr, hh⟩, fun x hx => ?_⟩
      have := hall x hx
      simp only [Bool.or_eq_true, not_or, Bool.not_eq_true]
      exact this

/-- Witness for C6: the iff applied to the `H` plus `L` transmission. -/
theorem query_classification_witness :
    ((∃ r ∈ [recH, recL], hasRecType 0x48 r = true) ∧
      ∀ r ∈ [recH, recL],
        hasRecType 0x50 r = false ∧ hasRecType 0x4F r = false) ∧
    isFieldQuery [recH, recL] = true :=
  ⟨⟨by decide, by decide⟩,
   (query_classification.1 [recH, recL]).mpr ⟨by decide, by decide⟩⟩

/-- C7 counterexample: a session that has seen no ENQ (fresh connection,
the spec's Idle state) processes an STX-framed valid frame, replies with
ACK and appends the content, instead of ignoring the byte silently. -/
theorem idle_stx_processed :
    run initSession [Event.stx ((encodeFrame 1 recL).drop 1)] =
      ({ lastAcceptedFrame := 1, retransmitCount := 0,
         receivedData := [recL], running := true }, [Out.ack]) ∧
    ([Out.ack] : List Out) ≠ [] :=
  ⟨by decide, by decide⟩

/-- C7 (amended): a byte other than ENQ, EOT or STX is logged and
ignored — no reply, state unchanged; STX however always starts frame
processing, the handler keeping no Idle/AwaitingFrames distinction. -/
theorem idle_byte_handling_amended :
    (∀ (s : Session) (b : Nat), b ≠ ENQ → b ≠ EOT → b ≠ STX →
      handleEvent s (Event.other b) = (s, [])) ∧
    (∀ (s : Session) (fd : List Nat),
      handleEvent s (Event.stx fd) = handleFrame s fd) :=
  ⟨fun _ _ _ _ _ => rfl, fun _ _ => rfl⟩

/-- Witness for C7 (amended) at byte 0x41. -/
theorem idle_byte_handling_witness :
    ((0x41 : Nat) ≠ ENQ ∧ (0x41 : Nat) ≠ EOT ∧ (0x41 : Nat) ≠ STX) ∧
    handleEvent initSession (Event.other 0x41) = (initSession, []) :=
  ⟨⟨by decide, by decide, by decide⟩,
   idle_byte_handling_amended.1 initSession 0x41 (by decide) (by decide)
     (by decide)⟩

/-- C8 counterexample: in legacy mode the header frame's send result is
ignored and the terminator frame is attempted regardless, so after a NAK
on the first (header) frame the responder still sends three frames; the
claim says a NAK stops the sending of further frames. -/
theorem responder_legacy_continues_after_nak :
    countOut isFrameOut (sendFieldQueryResponseLegacy (some ACK) recH [recR]
      recL [some NAK, some ACK, some ACK]) = 3 ∧
    (sendFrame 0 recH (some NAK)).2.2 = false ∧
    ¬ countOut isFrameOut (sendFieldQueryResponseLegacy (some ACK) recH
      [recR] recL [some NAK, some ACK, some ACK]) ≤ 1 :=
  ⟨by decide, by decide, by decide⟩

/-- C8 (amended): once the responder's ENQ is answered with ACK, exactly
one EOT is emitted in every outcome, in both template and legacy modes;
in template mode a failed send (receiver-interrupt EOT, NAK, any other
byte, or timeout) stops the record loop after that frame, while in legacy
mode only the per-field loop stops and the terminator frame is still
attempted. -/
theorem responder_eot_amended :
    (∀ (generated : Option (List (List Nat))) (replies : List (Option Nat)),
      countOut isEotOut
        (sendFieldQueryResponseTemplate (some ACK) generated replies) = 1) ∧
    (∀ (hdr : List Nat) (fields : List (List Nat)) (term : List Nat)
        (replies : List (Option Nat)),
      countOut isEotOut
        (sendFieldQueryResponseLegacy (some ACK) hdr fields term replies)
        = 1) ∧
    (∀ (fn : Nat) (r : List Nat) (rs : List (List Nat))
        (replies : List (Option Nat)),
      (sendFrame fn r replies.headI).2.2 = false →
      (sendRecords fn (r :: rs) replies).2.1 =
        [(sendFrame fn r replies.headI).2.1]) :=
  ⟨template_eot_count, legacy_eot_count,
   fun _ _ _ _ h => sendRecords_stop h⟩

/-- Witness for C8 (amended): template responder with two records and a
NAK reply sends one frame and one EOT. -/
theorem responder_eot_witness :
    (sendFrame 0 recH (some NAK)).2.2 = false ∧
    countOut isEotOut (sendFieldQueryResponseTemplate (some ACK)
      (some [recH, recL]) [some NAK]) = 1 ∧
    (sendRecords 0 [recH, recL] [some NAK]).2.1 =
      [(sendFrame 0 recH (some NAK)).2.1] :=
  ⟨by decide, responder_eot_amended.1 (some [recH, recL]) [some NAK],
   responder_eot_amended.2.2 0 recH [recL] [some NAK] (by decide)⟩

/-- C9: rejection atomicity.  Every rejected frame leaves the accumulated
records and the last-accepted frame number unchanged, increments the
retransmit counter by exactly one, answers NAK, and additionally emits
EOT and clears the running flag exactly when the counter reaches 6. -/
theorem rejection_atomicity : ∀ (s : Session) (fd : List Nat),
    checkFails s.lastAcceptedFrame fd = true →
    (handleFrame s fd).1.receivedData = s.receivedData ∧
    (handleFrame s fd).1.lastAcceptedFrame = s.lastAcceptedFrame ∧
    (handleFrame s fd).1.retransmitCount = s.retransmitCount + 1 ∧
    (s.retransmitCount + 1 < 6 →
      (handleFrame s fd).2 = [Out.nak] ∧
      (handleFrame s fd).1.running = s.running) ∧
    (6 ≤ s.retransmitCount + 1 →
      (handleFrame s fd).2 = [Out.nak, Out.eot] ∧
      (handleFrame s fd).1.running = false) := by
  intro s fd h
  rw [handleFrame_of_error h]
  by_cases h6 : 6 ≤ s.retransmitCount + 1
  · rw [rejectFrame_high h6]
    exact ⟨rfl, rfl, rfl, fun hlt => absurd h6 (by omega),
      fun _ => ⟨rfl, rfl⟩⟩
  · rw [rejectFrame_low (by omega)]
    exact ⟨rfl, rfl, rfl, fun _ => ⟨rfl, rfl⟩,
      fun hge => absurd hge h6⟩

/-- Witness for C9: an empty frame read on a fresh session. -/
theorem rejection_atomicity_witness :
    checkFails initSession.lastAcceptedFrame [] = true ∧
    (handleFrame initSession []).1.retransmitCount =
      initSession.retransmitCount + 1 ∧
    (handleFrame initSession []).2 = [Out.nak] :=
  ⟨by decide, (rejection_atomicity initSession [] (by decide)).2.2.1,
   ((rejection_atomicity initSession [] (by decide)).2.2.2.1
     (by decide)).1⟩

/-- C10: session counter invariant.  In every state reachable from a
fresh session, the last-accepted frame number is at most 7 and is 0
exactly as long as no frame has been accepted, the retransmit counter is
at most 6, a counter of 6 forces the running flag off, and once the flag
is off no further event is processed. -/
theorem session_counter_invariant : ∀ es : List Event,
    (run initSession es).1.lastAcceptedFrame ≤ 7 ∧
    (run initSession es).1.retransmitCount ≤ 6 ∧
    ((run initSession es).1.retransmitCount = 6 →
      (run initSession es).1.running = false) ∧
    ((run initSession es).1.lastAcceptedFrame = 0 ↔
      acceptedOfRun initSession es = []) ∧
    ((run initSession es).1.running = false →
      ∀ es2, run (run initSession es).1 es2 = ((run initSession es).1, [])) := by
  intro es
  have hinv : Inv initSession :=
    ⟨by decide, by decide, fun h => absurd h (by decide)⟩
  obtain ⟨h1, h2⟩ := run_inv es initSession hinv
  refine ⟨h1.1, h1.2.1, h1.2.2, ?_, ?_⟩
  · rw [h2]
    simp [initSession]
  · intro hrF es2
    exact run_stopped hrF es2

/-- Witness for C10: six rejected frames drive the counter to 6 and the
running flag off. -/
theorem session_counter_invariant_witness :
    (run initSession (List.replicate 6 (Event.stx []))).1.retransmitCount
      = 6 ∧
    (run initSession (List.replicate 6 (Event.stx []))).1.running = false :=
  ⟨by decide,
   (session_counter_invariant (List.replicate 6 (Event.stx []))).2.2.1
     (by decide)⟩

end AstmMock